import Mathlib

/-!
Verification of the document-expansion core of drone-riot-conv
(src/src/main.rs). The core receives a multi-document YAML blob, splits it
on the literal separator "\n---\n", attempts a structured decode of each
sub-document into a `Pipeline` record, and either passes the original text
through unchanged (decode failure, or no `parallelism` field) or emits N
renamed, parallelism-stripped copies of the decoded record re-encoded to
text, aborting the whole request if a re-encode fails.

The YAML library (serde_yaml) is external: its text-level parser and
renderer are abstract parameters `parse`/`render` here. What the library's
derive machinery does to the `Pipeline` struct declaration — field order,
`skip_serializing_if = "Option::is_none"` on `parallelism`,
`rename = "type"`, `flatten` on `extra`, required-field decode — is
determined by the struct declaration in src/src/main.rs lines 74-93 and is
embedded concretely as `serializeFields` and `decodePipeline`.
-/

namespace DroneRiotConv

/-- YAML values, as captured by the flattened `extra` map of `Pipeline`
(serde_yaml::Value). -/
inductive Yaml where
  | str : String → Yaml
  | int : Int → Yaml
  | bool : Bool → Yaml
  | null : Yaml
  | seq : List Yaml → Yaml
  | map : List (String × Yaml) → Yaml

/-- Embedding of `drone::Pipeline` (src/src/main.rs lines 74-93): `kind`,
`name` and `type` are required strings, `parallelism` an optional
non-negative machine integer, and `extra` the order-preserving capture of
all other top-level keys (`#[serde(flatten)]` on an `IndexMap`). -/
structure Pipeline where
  kind : String
  name : String
  parallelism : Option Nat
  type_ : String
  extra : List (String × Yaml)

/-- `const PARALLELISM_MAX: usize = 64` (src/src/main.rs line 97). -/
def PARALLELISM_MAX : Nat := 64

/-- Leftmost non-overlapping split, the semantics of Rust `str::split`
with a literal pattern. Fuel-based so that it reduces in the kernel;
the initial fuel `s.length` suffices since each step consumes at least
one character of a non-empty remainder. -/
def splitGo (sep : List Char) : Nat → List Char → List Char → List (List Char)
  | _, acc, [] => [acc.reverse]
  | 0, acc, rest => [acc.reverse ++ rest]
  | fuel + 1, acc, c :: cs =>
      if List.isPrefixOf sep (c :: cs) then
        acc.reverse :: splitGo sep fuel [] (List.drop sep.length (c :: cs))
      else
        splitGo sep fuel (c :: acc) cs

/-- `request.config.data.split("\n---\n")` (src/src/main.rs line 101). -/
def splitDocs (data : String) : List String :=
  (splitGo "\n---\n".toList data.toList.length [] data.toList).map String.mk

/-- The typed application error (src/src/main.rs lines 13-17):
`Error::DroneYamlError` carries the underlying serde_yaml error. -/
inductive Error (ε : Type) where
  | droneYamlError : ε → Error ε

/-- Decode errors of the serde-derived `Deserialize` impl for `Pipeline`. -/
inductive DecErr where
  | parseError : DecErr
  | missingField : String → DecErr
  | invalidType : String → DecErr

/-- First binding of a top-level key in a decoded YAML mapping. -/
def lookupField (fields : List (String × Yaml)) (k : String) : Option Yaml :=
  (fields.find? (fun kv => kv.1 == k)).map (fun kv => kv.2)

/-- The struct field names of `Pipeline` consumed by the derived decoder,
in declaration order; every other key lands in `extra`. -/
def knownKeys : List String := ["kind", "name", "parallelism", "type"]

/-- Decode a required `String` field. -/
def getStr (fields : List (String × Yaml)) (k : String) : Except DecErr String :=
  match lookupField fields k with
  | some (Yaml.str s) => Except.ok s
  | some _ => Except.error (DecErr.invalidType k)
  | none => Except.error (DecErr.missingField k)

/-- Decode the `parallelism: Option<usize>` field: absent is `none`; a
YAML integer must be representable as a non-negative 64-bit machine
integer, anything else is a decode failure. -/
def getParallelism (fields : List (String × Yaml)) : Except DecErr (Option Nat) :=
  match lookupField fields "parallelism" with
  | none => Except.ok none
  | some (Yaml.int z) =>
      if 0 ≤ z ∧ z < (2 : Int) ^ 64 then Except.ok (some z.toNat)
      else Except.error (DecErr.invalidType "parallelism")
  | some _ => Except.error (DecErr.invalidType "parallelism")

/-- The top-level keys not consumed by a named struct field, in source
order: the content of `extra` after decode. -/
def extraFields (fields : List (String × Yaml)) : List (String × Yaml) :=
  fields.filter (fun kv => !(knownKeys.contains kv.1))

/-- The serde-derived `Deserialize` impl for `Pipeline` applied to an
already-parsed top-level mapping: all of `kind`, `name`, `type` required
strings, `parallelism` optional, remaining keys captured in order. -/
def decodePipeline (fields : List (String × Yaml)) : Except DecErr Pipeline :=
  (getStr fields "kind").bind (fun kind =>
  (getStr fields "name").bind (fun name =>
  (getParallelism fields).bind (fun par =>
  (getStr fields "type").bind (fun ty =>
  Except.ok { kind := kind, name := name, parallelism := par,
              type_ := ty, extra := extraFields fields }))))

/-- `serde_yaml::from_str::<Pipeline>` factored through an abstract
text-level parser: parse the sub-document text into a top-level mapping,
then run the derived struct decoder. -/
def decodeDoc (parse : String → Except DecErr (List (String × Yaml)))
    (doc : String) : Except DecErr Pipeline :=
  (parse doc).bind decodePipeline

/-- The field sequence produced by the serde-derived `Serialize` impl for
`Pipeline`: declaration order `kind`, `name`, `parallelism` (skipped when
`None` by `skip_serializing_if = "Option::is_none"`), `type` (renamed),
then the flattened `extra` entries in order. -/
def serializeFields (p : Pipeline) : List (String × Yaml) :=
  [("kind", Yaml.str p.kind), ("name", Yaml.str p.name)]
    ++ (match p.parallelism with
        | some v => [("parallelism", Yaml.int (Int.ofNat v))]
        | none => [])
    ++ [("type", Yaml.str p.type_)]
    ++ p.extra

/-- One fan-out instance (src/src/main.rs lines 124-126): clone the
decoded pipeline, append `"-<n>"` to its name, clear `parallelism`. -/
def mkInstance (p : Pipeline) (n : Nat) : Pipeline :=
  { p with name := p.name ++ "-" ++ Nat.repr n, parallelism := none }

/-- The clamp of src/src/main.rs lines 116-122: a parallelism value above
`PARALLELISM_MAX` is limited to `PARALLELISM_MAX`. -/
def clampPar (v : Nat) : Nat :=
  if v > PARALLELISM_MAX then PARALLELISM_MAX else v

/-- The fan-out loop of src/src/main.rs lines 123-130 over the given
instance numbers: each instance is re-encoded (abstract renderer applied
to its serde field sequence) and appended followed by a single newline; a
failing re-encode aborts with `Error.droneYamlError` (the `map_err` +
`?` on line 127-128). -/
def emitCopies (render : List (String × Yaml) → Except ε String)
    (p : Pipeline) : List Nat → Except (Error ε) String
  | [] => Except.ok ""
  | n :: ns =>
      match render (serializeFields (mkInstance p n)) with
      | Except.error e => Except.error (Error.droneYamlError e)
      | Except.ok s => (emitCopies render p ns).map (fun rest => s ++ "\n" ++ rest)

/-- The per-sub-document step of the loop body (src/src/main.rs lines
102-133): decode failure passes the original text through; `parallelism`
present emits the clamped number of copies for instances `1..=value`;
`parallelism` absent passes the original text through. -/
def processDoc (decode : String → Except δ Pipeline)
    (render : List (String × Yaml) → Except ε String)
    (doc : String) : Except (Error ε) String :=
  match decode doc with
  | Except.error _ => Except.ok doc
  | Except.ok p =>
      match p.parallelism with
      | some v => emitCopies render p (List.range' 1 (clampPar v))
      | none => Except.ok doc

/-- The whole document loop (src/src/main.rs lines 100-134): per-document
contributions accumulate in order into one string; the first re-encode
failure aborts the whole request. -/
def convertDocs (decode : String → Except δ Pipeline)
    (render : List (String × Yaml) → Except ε String) :
    List String → Except (Error ε) String
  | [] => Except.ok ""
  | d :: ds =>
      match processDoc decode render d with
      | Except.error e => Except.error e
      | Except.ok c => (convertDocs decode render ds).map (fun rest => c ++ rest)

/-- The core of `convert_handler` (src/src/main.rs lines 96-137) as a
function of the request body text: split, process each sub-document,
concatenate. -/
def convert (decode : String → Except δ Pipeline)
    (render : List (String × Yaml) → Except ε String)
    (data : String) : Except (Error ε) String :=
  convertDocs decode render (splitDocs data)

/-! Concrete fixtures used to exercise the theorems below on closed inputs. -/

def pBuild : Pipeline :=
  { kind := "pipeline", name := "build", parallelism := some 2,
    type_ := "docker", extra := [] }

def pDeploy : Pipeline :=
  { kind := "pipeline", name := "deploy", parallelism := none,
    type_ := "docker", extra := [] }

def pZero : Pipeline :=
  { kind := "pipeline", name := "zero", parallelism := some 0,
    type_ := "docker", extra := [] }

def pBig : Pipeline :=
  { kind := "pipeline", name := "big", parallelism := some 1000,
    type_ := "docker", extra := [] }

/-- A decode oracle for the fixtures: a few recognized sub-document texts
decode to the pipelines above, everything else fails to decode. -/
def wDecode : String → Except DecErr Pipeline := fun doc =>
  if doc = "build" then Except.ok pBuild
  else if doc = "deploy" then Except.ok pDeploy
  else if doc = "zero" then Except.ok pZero
  else if doc = "big" then Except.ok pBig
  else if doc = "big64" then Except.ok { pBig with parallelism := some PARALLELISM_MAX }
  else Except.error DecErr.parseError

/-- A renderer that encodes every field sequence to the same short text. -/
def wRenderC : List (String × Yaml) → Except Unit String := fun _ => Except.ok "ENC"

/-- A renderer that always fails. -/
def wRenderFail : List (String × Yaml) → Except Unit String := fun _ => Except.error ()

/-- A parse oracle: the text "neg" parses to a mapping whose parallelism
value is the YAML integer -1, everything else fails to parse. -/
def wParseNeg : String → Except DecErr (List (String × Yaml)) := fun doc =>
  if doc = "neg" then
    Except.ok [("kind", Yaml.str "pipeline"), ("name", Yaml.str "x"),
               ("parallelism", Yaml.int (-1)), ("type", Yaml.str "docker")]
  else Except.error DecErr.parseError

/-! Helper lemmas shared by the claim theorems. -/

theorem mkInstance_name (p : Pipeline) (n : Nat) :
    (mkInstance p n).name = p.name ++ "-" ++ Nat.repr n := rfl

theorem serializeFields_mkInstance (p : Pipeline) (n : Nat) :
    serializeFields (mkInstance p n) =
      [("kind", Yaml.str p.kind),
       ("name", Yaml.str (p.name ++ "-" ++ Nat.repr n)),
       ("type", Yaml.str p.type_)] ++ p.extra := rfl

theorem keys_serializeFields_mkInstance (p : Pipeline) (n : Nat)
    (hx : "parallelism" ∉ p.extra.map Prod.fst) :
    "parallelism" ∉ (serializeFields (mkInstance p n)).map Prod.fst := by
  rw [serializeFields_mkInstance]
  simp only [List.map_append, List.mem_append, List.map_cons, List.map_nil,
    List.mem_cons, List.not_mem_nil, or_false]
  push_neg
  refine ⟨⟨by decide, by decide, by decide⟩, hx⟩

theorem emitCopies_ok (render : List (String × Yaml) → Except ε String)
    (p : Pipeline) (ns : List Nat) (f : Nat → String)
    (h : ∀ n ∈ ns, render (serializeFields (mkInstance p n)) = Except.ok (f n)) :
    emitCopies render p ns =
      Except.ok (ns.foldr (fun n acc => f n ++ "\n" ++ acc) "") := by
  induction ns with
  | nil => rfl
  | cons n ns ih =>
    simp only [emitCopies, h n (List.mem_cons_self n ns)]
    rw [ih (fun m hm => h m (List.mem_cons_of_mem n hm))]
    simp [Except.map]

theorem convertDocs_append (decode : String → Except δ Pipeline)
    (render : List (String × Yaml) → Except ε String) (xs ys : List String) :
    convertDocs decode render (xs ++ ys) =
      (convertDocs decode render xs).bind (fun a =>
        (convertDocs decode render ys).map (fun b => a ++ b)) := by
  induction xs with
  | nil =>
    simp only [List.nil_append, convertDocs]
    cases convertDocs decode render ys <;>
      simp [Except.bind, Except.map, String.empty_append]
  | cons d ds ih =>
    cases hp : processDoc decode render d with
    | error e => simp [convertDocs, hp, Except.bind]
    | ok c =>
      cases hds : convertDocs decode render ds with
      | error e =>
        simp only [hds, Except.bind] at ih
        simp [convertDocs, hp, ih, hds, Except.bind, Except.map]
      | ok a =>
        cases hys : convertDocs decode render ys with
        | error e =>
          simp only [hds, hys, Except.bind, Except.map] at ih
          simp [convertDocs, hp, ih, hds, hys, Except.bind, Except.map]
        | ok b =>
          simp only [hds, hys, Except.bind, Except.map] at ih
          simp [convertDocs, hp, ih, hds, hys, Except.bind, Except.map,
            String.append_assoc]

theorem emitCopies_error (render : List (String × Yaml) → Except ε String)
    (p : Pipeline) (ns : List Nat) (err : Error ε)
    (h : emitCopies render p ns = Except.error err) :
    ∃ n e, n ∈ ns ∧ render (serializeFields (mkInstance p n)) = Except.error e ∧
      err = Error.droneYamlError e := by
  induction ns with
  | nil => simp [emitCopies] at h
  | cons n ns ih =>
    cases hr : render (serializeFields (mkInstance p n)) with
    | error e =>
      simp only [emitCopies, hr, Except.error.injEq] at h
      exact ⟨n, e, by simp, hr, h.symm⟩
    | ok s =>
      simp only [emitCopies, hr] at h
      cases hm : emitCopies render p ns with
      | error err2 =>
        rw [hm] at h
        simp only [Except.map, Except.error.injEq] at h
        subst h
        obtain ⟨m, e, hmem, hre, heq⟩ := ih hm
        exact ⟨m, e, by simp [hmem], hre, heq⟩
      | ok s2 =>
        rw [hm] at h
        simp [Except.map] at h

theorem processDoc_error (decode : String → Except δ Pipeline)
    (render : List (String × Yaml) → Except ε String) (doc : String) (err : Error ε)
    (h : processDoc decode render doc = Except.error err) :
    ∃ p n e, render (serializeFields (mkInstance p n)) = Except.error e ∧
      err = Error.droneYamlError e := by
  cases hd : decode doc with
  | error e => simp [processDoc, hd] at h
  | ok p =>
    cases hp : p.parallelism with
    | none => simp [processDoc, hd, hp] at h
    | some v =>
      simp only [processDoc, hd, hp] at h
      obtain ⟨n, e, _, hre, heq⟩ := emitCopies_error render p _ err h
      exact ⟨p, n, e, hre, heq⟩

theorem convertDocs_error (decode : String → Except δ Pipeline)
    (render : List (String × Yaml) → Except ε String) (ds : List String) (err : Error ε)
    (h : convertDocs decode render ds = Except.error err) :
    ∃ p n e, render (serializeFields (mkInstance p n)) = Except.error e ∧
      err = Error.droneYamlError e := by
  induction ds with
  | nil => simp [convertDocs] at h
  | cons d ds ih =>
    cases hp : processDoc decode render d with
    | error e2 =>
      simp only [convertDocs, hp, Except.error.injEq] at h
      subst h
      exact processDoc_error decode render d e2 hp
    | ok c =>
      simp only [convertDocs, hp] at h
      cases hm : convertDocs decode render ds with
      | error e2 =>
        rw [hm] at h
        simp only [Except.map, Except.error.injEq] at h
        subst h
        exact ih hm
      | ok s =>
        rw [hm] at h
        simp [Except.map] at h

theorem emitCopies_first_error (render : List (String × Yaml) → Except ε String)
    (p : Pipeline) (ns1 : List Nat) (n : Nat) (ns2 : List Nat) (e : ε)
    (hok : ∀ m ∈ ns1, ∃ s, render (serializeFields (mkInstance p m)) = Except.ok s)
    (hfail : render (serializeFields (mkInstance p n)) = Except.error e) :
    emitCopies render p (ns1 ++ n :: ns2) = Except.error (Error.droneYamlError e) := by
  induction ns1 with
  | nil => simp [emitCopies, hfail]
  | cons m ms ih =>
    obtain ⟨s, hs⟩ := hok m (by simp)
    simp only [List.cons_append, emitCopies, hs, List.append_eq]
    rw [ih (fun k hk => hok k (by simp [hk]))]
    simp [Except.map]

theorem convertDocs_abort (decode : String → Except δ Pipeline)
    (render : List (String × Yaml) → Except ε String)
    (pre : List String) (doc : String) (post : List String) (err : Error ε)
    (hok : ∀ d ∈ pre, ∃ c, processDoc decode render d = Except.ok c)
    (hfail : processDoc decode render doc = Except.error err) :
    convertDocs decode render (pre ++ doc :: post) = Except.error err := by
  induction pre with
  | nil => simp [convertDocs, hfail]
  | cons d ds ih =>
    obtain ⟨c, hc⟩ := hok d (by simp)
    simp only [List.cons_append, convertDocs, hc, List.append_eq]
    rw [ih (fun k hk => hok k (by simp [hk]))]
    simp [Except.map]

/-! Claim theorems. -/

/-- C9: expansion of the empty input string returns the empty string. -/
theorem empty_input (decode : String → Except δ Pipeline)
    (render : List (String × Yaml) → Except ε String) (e : δ)
    (h : decode "" = Except.error e) :
    convert decode render "" = Except.ok "" := by
  have hs : splitDocs "" = [""] := by decide
  simp [convert, hs, convertDocs, processDoc, h, Except.map]

theorem empty_input_witness : convert wDecode wRenderC "" = Except.ok "" :=
  empty_input wDecode wRenderC DecErr.parseError rfl

/-- C4: a sub-document that decodes with `parallelism` absent is passed
through as its original text, for every renderer (so the contribution is
not a re-encoding of the decoded record). -/
theorem no_parallelism_identity (decode : String → Except δ Pipeline)
    (doc : String) (p : Pipeline)
    (hdec : decode doc = Except.ok p) (hpar : p.parallelism = none) :
    ∀ render : List (String × Yaml) → Except ε String,
      processDoc decode render doc = Except.ok doc := by
  intro render
  simp [processDoc, hdec, hpar]

theorem no_parallelism_identity_witness :
    processDoc wDecode wRenderC "deploy" = Except.ok "deploy" :=
  no_parallelism_identity wDecode "deploy" pDeploy rfl rfl wRenderC

/-- C5: `parallelism = 0` yields zero copies and drops the original text:
the sub-document's total contribution is the empty string. -/
theorem zero_parallelism_deletes (decode : String → Except δ Pipeline)
    (render : List (String × Yaml) → Except ε String) (doc : String) (p : Pipeline)
    (hdec : decode doc = Except.ok p) (hpar : p.parallelism = some 0) :
    processDoc decode render doc = Except.ok "" := by
  simp [processDoc, hdec, hpar, clampPar, PARALLELISM_MAX, List.range', emitCopies]

theorem zero_parallelism_deletes_witness :
    processDoc wDecode wRenderC "zero" = Except.ok "" :=
  zero_parallelism_deletes wDecode wRenderC "zero" pZero rfl rfl

/-- C2: a sub-document that fails structured decode contributes its
original text byte-for-byte, and the surrounding request still processes
the sub-documents before and after it. -/
theorem passthrough_identity (decode : String → Except δ Pipeline)
    (render : List (String × Yaml) → Except ε String) (doc : String) (e : δ)
    (hdec : decode doc = Except.error e) :
    processDoc decode render doc = Except.ok doc ∧
    ∀ pre post, convertDocs decode render (pre ++ doc :: post) =
      (convertDocs decode render pre).bind (fun a =>
        (convertDocs decode render post).map (fun b => a ++ (doc ++ b))) := by
  have h1 : processDoc decode render doc = Except.ok doc := by simp [processDoc, hdec]
  refine ⟨h1, fun pre post => ?_⟩
  rw [convertDocs_append]
  have h2 : convertDocs decode render (doc :: post) =
      (convertDocs decode render post).map (fun b => doc ++ b) := by
    simp [convertDocs, h1]
  rw [h2]
  cases convertDocs decode render pre <;> cases convertDocs decode render post <;>
    simp [Except.bind, Except.map]

theorem passthrough_identity_witness :
    processDoc wDecode wRenderC "garbage" = Except.ok "garbage" ∧
    ∀ pre post, convertDocs wDecode wRenderC (pre ++ "garbage" :: post) =
      (convertDocs wDecode wRenderC pre).bind (fun a =>
        (convertDocs wDecode wRenderC post).map (fun b => a ++ ("garbage" ++ b))) :=
  passthrough_identity wDecode wRenderC "garbage" DecErr.parseError rfl

/-- C1: a sub-document that decodes with `parallelism = some v`,
`0 < v ≤ 64`, contributes exactly the `v` re-encoded copies for instances
`1, ..., v` in order, each followed by a single newline; the `i`-th copy
is named `"<orig>-<i>"`, and no copy's serialized field sequence contains
a `parallelism` key. -/
theorem fanout_count (decode : String → Except δ Pipeline)
    (render : List (String × Yaml) → Except ε String)
    (doc : String) (p : Pipeline) (v : Nat) (f : Nat → String)
    (hdec : decode doc = Except.ok p) (hpar : p.parallelism = some v)
    (_hpos : 0 < v) (hmax : v ≤ PARALLELISM_MAX)
    (hx : "parallelism" ∉ p.extra.map Prod.fst)
    (henc : ∀ n ∈ List.range' 1 v,
      render (serializeFields (mkInstance p n)) = Except.ok (f n)) :
    processDoc decode render doc =
      Except.ok ((List.range' 1 v).foldr (fun n acc => f n ++ "\n" ++ acc) "") ∧
    (List.range' 1 v).length = v ∧
    (∀ n, (mkInstance p n).name = p.name ++ "-" ++ Nat.repr n) ∧
    (∀ n, "parallelism" ∉ (serializeFields (mkInstance p n)).map Prod.fst) := by
  have hnot : ¬ (v > PARALLELISM_MAX) := Nat.not_lt.mpr hmax
  have hc : clampPar v = v := by unfold clampPar; exact if_neg hnot
  refine ⟨?_, by simp, fun n => rfl, fun n => keys_serializeFields_mkInstance p n hx⟩
  simp only [processDoc, hdec, hpar, hc]
  exact emitCopies_ok render p _ f henc

theorem fanout_count_witness :
    processDoc wDecode wRenderC "build" =
      Except.ok ((List.range' 1 2).foldr
        (fun n acc => (fun _ : Nat => "ENC") n ++ "\n" ++ acc) "") ∧
    (List.range' 1 2).length = 2 ∧
    (∀ n, (mkInstance pBuild n).name = pBuild.name ++ "-" ++ Nat.repr n) ∧
    (∀ n, "parallelism" ∉ (serializeFields (mkInstance pBuild n)).map Prod.fst) :=
  fanout_count wDecode wRenderC "build" pBuild 2 (fun _ => "ENC") rfl rfl
    (by decide) (by decide) (by simp [pBuild]) (fun n _ => rfl)

/-- C6: a decoded parallelism above 64 behaves exactly as 64: the
sub-document's contribution equals the contribution of the same document
decoded with parallelism 64, namely the 64-instance fan-out, and the
clamp itself never produces an error. -/
theorem clamping (decode : String → Except δ Pipeline)
    (render : List (String × Yaml) → Except ε String)
    (doc doc' : String) (p : Pipeline) (v : Nat)
    (hdec : decode doc = Except.ok p) (hpar : p.parallelism = some v)
    (hv : PARALLELISM_MAX < v)
    (hdec' : decode doc' = Except.ok { p with parallelism := some PARALLELISM_MAX }) :
    processDoc decode render doc = processDoc decode render doc' ∧
    processDoc decode render doc = emitCopies render p (List.range' 1 PARALLELISM_MAX) := by
  have h1 : processDoc decode render doc =
      emitCopies render p (List.range' 1 PARALLELISM_MAX) := by
    have hc : clampPar v = PARALLELISM_MAX := by unfold clampPar; exact if_pos hv
    simp only [processDoc, hdec, hpar, hc]
  have hcl : clampPar PARALLELISM_MAX = PARALLELISM_MAX := by
    unfold clampPar; exact if_neg (by omega)
  have hemit : ∀ ns, emitCopies render { p with parallelism := some PARALLELISM_MAX } ns
      = emitCopies render p ns := by
    intro ns
    induction ns with
    | nil => rfl
    | cons n ns ih =>
      simp only [emitCopies]
      rw [show mkInstance { p with parallelism := some PARALLELISM_MAX } n
          = mkInstance p n from rfl, ih]
  refine ⟨?_, h1⟩
  rw [h1]
  simp only [processDoc, hdec', hcl]
  rw [hemit]

theorem clamping_witness :
    processDoc wDecode wRenderC "big" = processDoc wDecode wRenderC "big64" ∧
    processDoc wDecode wRenderC "big" =
      emitCopies wRenderC pBig (List.range' 1 PARALLELISM_MAX) :=
  clamping wDecode wRenderC "big" "big64" pBig 1000 rfl rfl (by decide) rfl

/-- C8: every fan-out instance keeps `kind`, `type` and the captured
`extra` mapping unchanged; its serialized field sequence is exactly
`kind`, the suffixed `name`, `type`, then the `extra` entries in their
original order; and a decoded pipeline's `extra` is exactly the source
mapping's unrecognized keys in source order. -/
theorem frame_preservation (p : Pipeline) (n : Nat) :
    (mkInstance p n).kind = p.kind ∧
    (mkInstance p n).type_ = p.type_ ∧
    (mkInstance p n).extra = p.extra ∧
    serializeFields (mkInstance p n) =
      [("kind", Yaml.str p.kind),
       ("name", Yaml.str (p.name ++ "-" ++ Nat.repr n)),
       ("type", Yaml.str p.type_)] ++ p.extra ∧
    ∀ fields q, decodePipeline fields = Except.ok q → q.extra = extraFields fields := by
  refine ⟨rfl, rfl, rfl, serializeFields_mkInstance p n, ?_⟩
  intro fields q h
  cases h1 : getStr fields "kind" with
  | error e => simp [decodePipeline, h1, Except.bind] at h
  | ok kind =>
    cases h2 : getStr fields "name" with
    | error e => simp [decodePipeline, h1, h2, Except.bind] at h
    | ok name =>
      cases h3 : getParallelism fields with
      | error e => simp [decodePipeline, h1, h2, h3, Except.bind] at h
      | ok par =>
        cases h4 : getStr fields "type" with
        | error e => simp [decodePipeline, h1, h2, h3, h4, Except.bind] at h
        | ok ty =>
          simp only [decodePipeline, h1, h2, h3, h4, Except.bind, Except.ok.injEq] at h
          rw [← h]

theorem frame_preservation_witness :
    (mkInstance pBuild 1).kind = pBuild.kind ∧
    (mkInstance pBuild 1).type_ = pBuild.type_ ∧
    (mkInstance pBuild 1).extra = pBuild.extra ∧
    serializeFields (mkInstance pBuild 1) =
      [("kind", Yaml.str pBuild.kind),
       ("name", Yaml.str (pBuild.name ++ "-" ++ Nat.repr 1)),
       ("type", Yaml.str pBuild.type_)] ++ pBuild.extra ∧
    ∀ fields q, decodePipeline fields = Except.ok q → q.extra = extraFields fields :=
  frame_preservation pBuild 1

/-- C3: contributions concatenate in original sub-document order with no
added separator; for three sub-documents — decodable with parallelism 2
and name "build", undecodable garbage, decodable with no parallelism —
the output is the two copies named "build-1", "build-2" (neither
serializing a parallelism key), then the garbage verbatim, then the last
document verbatim, in that order. -/
theorem multi_document_composition (decode : String → Except δ Pipeline)
    (render : List (String × Yaml) → Except ε String)
    (d1 d2 d3 : String) (p1 p3 : Pipeline) (e : δ) (s1 s2 : String)
    (h1 : decode d1 = Except.ok p1) (hp1 : p1.parallelism = some 2)
    (hn1 : p1.name = "build")
    (h2 : decode d2 = Except.error e)
    (h3 : decode d3 = Except.ok p3) (hp3 : p3.parallelism = none)
    (e1 : render (serializeFields (mkInstance p1 1)) = Except.ok s1)
    (e2 : render (serializeFields (mkInstance p1 2)) = Except.ok s2)
    (hx : "parallelism" ∉ p1.extra.map Prod.fst) :
    convertDocs decode render [d1, d2, d3] =
      Except.ok (s1 ++ "\n" ++ (s2 ++ "\n" ++ (d2 ++ d3))) ∧
    (mkInstance p1 1).name = "build-1" ∧
    (mkInstance p1 2).name = "build-2" ∧
    "parallelism" ∉ (serializeFields (mkInstance p1 1)).map Prod.fst ∧
    "parallelism" ∉ (serializeFields (mkInstance p1 2)).map Prod.fst := by
  have hd1 : processDoc decode render d1 = Except.ok ((s1 ++ "\n") ++ (s2 ++ "\n")) := by
    have hr : List.range' 1 (clampPar 2) = [1, 2] := by decide
    simp [processDoc, h1, hp1, hr, emitCopies, e1, e2, Except.map]
  have hd2 : processDoc decode render d2 = Except.ok d2 := by simp [processDoc, h2]
  have hd3 : processDoc decode render d3 = Except.ok d3 := by simp [processDoc, h3, hp3]
  refine ⟨?_, ?_, ?_, keys_serializeFields_mkInstance p1 1 hx,
    keys_serializeFields_mkInstance p1 2 hx⟩
  · simp [convertDocs, hd1, hd2, hd3, Except.map, String.append_assoc]
  · rw [mkInstance_name, hn1]; decide
  · rw [mkInstance_name, hn1]; decide

theorem multi_document_composition_witness :
    convertDocs wDecode wRenderC ["build", "garbage", "deploy"] =
      Except.ok ("ENC" ++ "\n" ++ ("ENC" ++ "\n" ++ ("garbage" ++ "deploy"))) ∧
    (mkInstance pBuild 1).name = "build-1" ∧
    (mkInstance pBuild 2).name = "build-2" ∧
    "parallelism" ∉ (serializeFields (mkInstance pBuild 1)).map Prod.fst ∧
    "parallelism" ∉ (serializeFields (mkInstance pBuild 2)).map Prod.fst :=
  multi_document_composition wDecode wRenderC "build" "garbage" "deploy"
    pBuild pDeploy DecErr.parseError "ENC" "ENC" rfl rfl rfl rfl rfl rfl
    rfl rfl (by simp [pBuild])

/-- C7: the whole request fails only through a re-encode failure: any
error result of `convert` is the single typed `Error.droneYamlError`
carrying the renderer's underlying error; within a fan-out the first
failing re-encode aborts the sub-document with that error, and a failing
sub-document aborts the whole document sequence with that error (no
partial result is returned). -/
theorem encode_failure_aborts (decode : String → Except δ Pipeline)
    (render : List (String × Yaml) → Except ε String) :
    (∀ data err, convert decode render data = Except.error err →
      ∃ p n e, render (serializeFields (mkInstance p n)) = Except.error e ∧
        err = Error.droneYamlError e) ∧
    (∀ doc p v ns1 n ns2 e, decode doc = Except.ok p → p.parallelism = some v →
      List.range' 1 (clampPar v) = ns1 ++ n :: ns2 →
      (∀ m ∈ ns1, ∃ s, render (serializeFields (mkInstance p m)) = Except.ok s) →
      render (serializeFields (mkInstance p n)) = Except.error e →
      processDoc decode render doc = Except.error (Error.droneYamlError e)) ∧
    (∀ pre doc post err,
      (∀ d ∈ pre, ∃ c, processDoc decode render d = Except.ok c) →
      processDoc decode render doc = Except.error err →
      convertDocs decode render (pre ++ doc :: post) = Except.error err) := by
  refine ⟨?_, ?_, ?_⟩
  · intro data err h
    exact convertDocs_error decode render _ err h
  · intro doc p v ns1 n ns2 e hdec hpar hsplit hok hfail
    simp only [processDoc, hdec, hpar, hsplit]
    exact emitCopies_first_error render p ns1 n ns2 e hok hfail
  · intro pre doc post err hok hfail
    exact convertDocs_abort decode render pre doc post err hok hfail

theorem encode_failure_aborts_witness :
    convertDocs wDecode wRenderFail ["deploy", "build", "garbage"] =
      Except.error (Error.droneYamlError ()) := by
  have h := encode_failure_aborts wDecode wRenderFail
  have hfail : processDoc wDecode wRenderFail "build" =
      Except.error (Error.droneYamlError ()) :=
    h.2.1 "build" pBuild 2 [] 1 [2] () rfl rfl (by decide) (by simp) rfl
  exact h.2.2 ["deploy"] "build" ["garbage"] (Error.droneYamlError ())
    (by intro d hd; simp at hd; subst hd; exact ⟨"deploy", rfl⟩) hfail

/-- C10: a sub-document whose parallelism value is a YAML integer that is
negative (or too large for a 64-bit machine integer) fails structured
decode, and the sub-document — its parallelism key included — is passed
through verbatim rather than expanded or rejected. -/
theorem negative_parallelism_passthrough
    (parse : String → Except DecErr (List (String × Yaml)))
    (render : List (String × Yaml) → Except ε String) (doc : String)
    (fields : List (String × Yaml)) (z : Int)
    (hparse : parse doc = Except.ok fields)
    (hpar : lookupField fields "parallelism" = some (Yaml.int z))
    (hz : z < 0 ∨ (2 : Int) ^ 64 ≤ z) :
    (∃ err, decodeDoc parse doc = Except.error err) ∧
    processDoc (decodeDoc parse) render doc = Except.ok doc := by
  have hcond : ¬ (0 ≤ z ∧ z < (2 : Int) ^ 64) := by
    intro hand
    rcases hz with hz | hz
    · exact absurd hand.1 (Int.not_le.mpr hz)
    · exact absurd hand.2 (Int.not_lt.mpr hz)
  have hgp : getParallelism fields = Except.error (DecErr.invalidType "parallelism") := by
    simp only [getParallelism, hpar]
    exact if_neg hcond
  have hdp : ∃ err, decodePipeline fields = Except.error err := by
    cases hk : getStr fields "kind" with
    | error e => exact ⟨e, by simp [decodePipeline, hk, Except.bind]⟩
    | ok kind =>
      cases hn : getStr fields "name" with
      | error e => exact ⟨e, by simp [decodePipeline, hk, hn, Except.bind]⟩
      | ok name =>
        exact ⟨DecErr.invalidType "parallelism",
          by simp [decodePipeline, hk, hn, hgp, Except.bind]⟩
  obtain ⟨err, herr⟩ := hdp
  have hdd : decodeDoc parse doc = Except.error err := by
    simp [decodeDoc, hparse, Except.bind, herr]
  exact ⟨⟨err, hdd⟩, by simp [processDoc, hdd]⟩

theorem negative_parallelism_passthrough_witness :
    (∃ err, decodeDoc wParseNeg "neg" = Except.error err) ∧
    processDoc (decodeDoc wParseNeg) wRenderC "neg" = Except.ok "neg" :=
  negative_parallelism_passthrough wParseNeg wRenderC "neg"
    [("kind", Yaml.str "pipeline"), ("name", Yaml.str "x"),
     ("parallelism", Yaml.int (-1)), ("type", Yaml.str "docker")]
    (-1) rfl rfl (Or.inl (by decide))

end DroneRiotConv
